import Mathlib

/-
Shallow embedding of AKCoreSampler.cpp (AudioKit Core sampler engine).

Conventions:
- C `int` values are modelled as `Int`; where the source compares an `int`
  against an `unsigned` (C++ promotes the int to unsigned, wrapping mod 2^32)
  we apply `uint32ofInt` explicitly.
- C `float` arithmetic is modelled over `ℚ` (exact rationals).  All concrete
  inputs used in counterexamples below are chosen so that the corresponding
  float computations are exact, so the rational model agrees with the float
  code at those points.
- The per-voice DSP (SamplerVoice), the sustain-pedal logic
  (SustainPedalLogic) and the sample-buffer class (KeyMappedSampleBuffer)
  live outside this translation unit; their state effects are modelled from
  the spec where needed (marked `Modelled from the spec:`).  The PCM data
  copy inside loadSampleData is elided: no property below depends on the
  sample values themselves.
-/

namespace AKSampler

/-- number of voices (`#define MAX_POLYPHONY 64`). -/
def MAX_POLYPHONY : Nat := 64

/-- MIDI offers 128 distinct note numbers (`#define MIDI_NOTENUMBERS 128`). -/
def MIDI_NOTENUMBERS : Nat := 128

/-- C++ conversion of a (32-bit) `int` to `unsigned`, i.e. reduction mod 2^32. -/
def uint32ofInt (n : Int) : Nat := (n % 4294967296).toNat

/-- C++ conversion of an `unsigned` value to (32-bit) `int`:
values below 2^31 are preserved, larger ones wrap to negatives. -/
def int32ofUInt (v : Nat) : Int :=
  let r := v % 4294967296
  if r < 2147483648 then (r : Int) else (r : Int) - 4294967296

/-- Modelled from the spec: the fields of AudioKitCore::KeyMappedSampleBuffer
(declared outside this translation unit) that the sampler reads and writes.
PCM contents are elided. -/
structure SampleBuffer where
  minimumNoteNumber : Int
  maximumNoteNumber : Int
  minimumVelocity : Int
  maximumVelocity : Int
  noteNumber : Int
  noteFrequency : ℚ
  sampleRate : ℚ
  channelCount : Int
  sampleCount : Int
  startPoint : ℚ
  endPoint : ℚ
  isLooping : Bool
  loopStartPoint : ℚ
  loopEndPoint : ℚ
deriving DecidableEq

/-- The AKSampleDescriptor metadata carried inside an AKSampleDataDescriptor. -/
structure AKSampleDescriptor where
  noteNumber : Int
  noteFrequency : ℚ
  minimumNoteNumber : Int
  maximumNoteNumber : Int
  minimumVelocity : Int
  maximumVelocity : Int
  isLooping : Bool
  loopStartPoint : ℚ
  loopEndPoint : ℚ
  startPoint : ℚ
  endPoint : ℚ
deriving DecidableEq

/-- The AKSampleDataDescriptor passed to loadSampleData (PCM pointer elided). -/
structure AKSampleDataDescriptor where
  sampleDescriptor : AKSampleDescriptor
  sampleRate : ℚ
  isInterleaved : Bool
  channelCount : Int
  sampleCount : Int
deriving DecidableEq

/-- One entry of the SamplerVoice pool.  Only the `noteNumber` bookkeeping is
visible to the sampler's control logic; the DSP state is black-boxed. -/
structure Voice where
  noteNumber : Int
deriving DecidableEq

/-- Modelled from the spec: the state of AudioKitCore::SustainPedalLogic
(its source is outside this translation unit): physically-held keys,
keys sustaining via pedal, and the pedal flag. -/
structure PedalState where
  keysDown : Nat → Bool
  keysSustaining : Nat → Bool
  pedalDown : Bool

/-- Modelled from the spec: `key_down(k)` sets `keys_down[k]` and clears
`keys_sustaining[k]`. -/
def keyDownAction (p : PedalState) (k : Nat) : PedalState :=
  { p with
    keysDown := fun j => if j == k then true else p.keysDown j
    keysSustaining := fun j => if j == k then false else p.keysSustaining j }

/-- Modelled from the spec: `key_up(k)` clears `keys_down[k]`; if the pedal is
down it marks the key sustaining and returns false (keep playing), else it
returns true (the note should stop).  Returns (shouldStop, new state). -/
def keyUpAction (p : PedalState) (k : Nat) : Bool × PedalState :=
  if p.pedalDown then
    (false,
     { p with
       keysDown := fun j => if j == k then false else p.keysDown j
       keysSustaining := fun j => if j == k then true else p.keysSustaining j })
  else
    (true, { p with keysDown := fun j => if j == k then false else p.keysDown j })

/-- Modelled from the spec: `is_any_key_down()`. -/
def isAnyKeyDown (p : PedalState) : Bool :=
  (List.range MIDI_NOTENUMBERS).any (fun k => p.keysDown k)

/-- Modelled from the spec: `first_key_down()`; −1 when no key is held. -/
def firstKeyDown (p : PedalState) : Int :=
  match (List.range MIDI_NOTENUMBERS).find? (fun k => p.keysDown k) with
  | some k => (k : Int)
  | none => -1

/-- The sampler state: the fields of AKCoreSampler and its InternalData that
the control logic reads or writes.  Envelope/filter scalar parameters that
are only forwarded to the black-boxed voice DSP are elided. -/
structure SamplerState where
  sampleBufferList : List SampleBuffer
  keyMap : Nat → List SampleBuffer
  isKeyMapValid : Bool
  tuningTable : Nat → ℚ
  voices : List Voice
  pedal : PedalState
  lastPlayedNoteNumber : Nat
  stoppingAllVoices : Bool
  isMonophonic : Bool
  isLegato : Bool

/-- The KeyMappedSampleBuffer built by loadSampleData from a descriptor:
metadata copy, then `init` (which per the spec defaults startPoint to 0 and
endPoint to sampleCount), then the conditional start/end overrides and the
fractional-vs-absolute loop point resolution of lines 132–144. -/
def bufferOfDescriptor (sdd : AKSampleDataDescriptor) : SampleBuffer :=
  let startPoint : ℚ :=
    if sdd.sampleDescriptor.startPoint > 0 then sdd.sampleDescriptor.startPoint else 0
  let endPoint : ℚ :=
    if sdd.sampleDescriptor.endPoint > 0 then sdd.sampleDescriptor.endPoint
    else (sdd.sampleCount : ℚ)
  { minimumNoteNumber := sdd.sampleDescriptor.minimumNoteNumber
    maximumNoteNumber := sdd.sampleDescriptor.maximumNoteNumber
    minimumVelocity := sdd.sampleDescriptor.minimumVelocity
    maximumVelocity := sdd.sampleDescriptor.maximumVelocity
    noteNumber := sdd.sampleDescriptor.noteNumber
    noteFrequency := sdd.sampleDescriptor.noteFrequency
    sampleRate := sdd.sampleRate
    channelCount := sdd.channelCount
    sampleCount := sdd.sampleCount
    startPoint := startPoint
    endPoint := endPoint
    isLooping := sdd.sampleDescriptor.isLooping
    loopStartPoint :=
      if sdd.sampleDescriptor.isLooping then
        if sdd.sampleDescriptor.loopStartPoint > 1 then sdd.sampleDescriptor.loopStartPoint
        else endPoint * sdd.sampleDescriptor.loopStartPoint
      else 0
    loopEndPoint :=
      if sdd.sampleDescriptor.isLooping then
        if sdd.sampleDescriptor.loopEndPoint > 1 then sdd.sampleDescriptor.loopEndPoint
        else endPoint * sdd.sampleDescriptor.loopEndPoint
      else 0 }

/-- AKCoreSampler::loadSampleData (lines 109–145).  The new buffer is pushed
onto the bank unconditionally (the push_back at line 116 happens before any
field is even filled in; since the list stores a pointer, the element seen by
later code is the fully initialised buffer, which is what we append here).
No descriptor field is validated and nothing else in the state is touched. -/
def loadSampleData (s : SamplerState) (sdd : AKSampleDataDescriptor) : SamplerState :=
  { s with sampleBufferList := s.sampleBufferList ++ [bufferOfDescriptor sdd] }

/-- AKCoreSampler::lookupSample (lines 147–165): a single-element bucket is
returned immediately; otherwise the first buffer in insertion order that is
velocity-agnostic (negative min or max) or whose range contains `(int)velocity`
is returned; otherwise none. -/
def lookupSample (s : SamplerState) (noteNumber velocity : Nat) : Option SampleBuffer :=
  let bucket := s.keyMap noteNumber
  if bucket.length == 1 then bucket.head?
  else
    bucket.find? (fun b =>
      decide (b.minimumVelocity < 0) || decide (b.maximumVelocity < 0) ||
      (decide (int32ofUInt velocity ≥ b.minimumVelocity) &&
       decide (int32ofUInt velocity ≤ b.maximumVelocity)))

/-- AKCoreSampler::setNoteFrequency (lines 167–170). -/
def setNoteFrequency (s : SamplerState) (noteNumber : Nat) (noteFrequency : ℚ) : SamplerState :=
  { s with tuningTable := fun j => if j == noteNumber then noteFrequency else s.tuningTable j }

/-- The distance used by buildSimpleKeyMap: `fabsf(NOTE_HZ(pBuf->noteNumber) - noteFreq)`.
The 12-TET pitch function NOTE_HZ (a float `pow` expression) is irrational in
general and is therefore passed in as a parameter `hz`; every theorem below
quantifies over it or instantiates it at points where the float value is exact. -/
def noteDistance (hz : Int → ℚ) (noteFreq : ℚ) (b : SampleBuffer) : ℚ :=
  |hz b.noteNumber - noteFreq|

/-- The first scan of AKCoreSampler::buildSimpleKeyMap (lines 185–194):
running minimum of the distances, seeded with the sentinel 1000000.0f. -/
def minDistanceScan (hz : Int → ℚ) (noteFreq : ℚ) (bank : List SampleBuffer) : ℚ :=
  bank.foldl (fun m b => if noteDistance hz noteFreq b < m then noteDistance hz noteFreq b else m)
    1000000

/-- AKCoreSampler::buildSimpleKeyMap (lines 174–207): clear all buckets, then
for each MIDI note fill its bucket with the buffers whose distance equals the
result of the sentinel-seeded minimum scan, and finally set the valid flag. -/
def buildSimpleKeyMap (hz : Int → ℚ) (s : SamplerState) : SamplerState :=
  let keyMap' : Nat → List SampleBuffer := fun nn =>
    if nn < MIDI_NOTENUMBERS then
      let noteFreq := s.tuningTable nn
      let minDistance := minDistanceScan hz noteFreq s.sampleBufferList
      s.sampleBufferList.filter (fun b => noteDistance hz noteFreq b == minDistance)
    else []
  { s with keyMap := keyMap', isKeyMapValid := true }

/-- Spec-side definition, for comparison with `buildSimpleKeyMap` (written from
the spec's words, not the source): the buffers whose distance to the key's
frequency attains the minimum over the whole bank, in bank insertion order. -/
def specClosestBucket (hz : Int → ℚ) (noteFreq : ℚ) (bank : List SampleBuffer) :
    List SampleBuffer :=
  bank.filter (fun b =>
    decide (∀ b' ∈ bank, noteDistance hz noteFreq b ≤ noteDistance hz noteFreq b'))

/-- AKCoreSampler::voicePlayingNote (lines 230–238), returning the index of the
voice rather than a pointer; the source compares the voice's `int noteNumber`
with the `unsigned noteNumber` argument, so the int is converted to unsigned. -/
def voicePlayingNote (s : SamplerState) (noteNumber : Nat) : Option Nat :=
  s.voices.findIdx? (fun v => uint32ofInt v.noteNumber == noteNumber)

/-- Set the note-number bookkeeping of voice `i`. -/
def setVoiceNote (s : SamplerState) (i : Nat) (nn : Int) : SamplerState :=
  { s with voices := s.voices.set i ⟨nn⟩ }

/-- The voice call made by a run of AKCoreSampler::play, recorded so theorems
can talk about which path was taken and which buffer was handed over.
`dropped` stands for every path that returns without touching a voice. -/
inductive PlayAction where
  | dropped
  | legatoRestart (i : Nat) (key : Nat)
  | startVoice (i : Nat) (key : Nat) (buf : SampleBuffer)
  | restartNewNote (i : Nat) (key : Nat) (buf : SampleBuffer)
  | restartSameNote (i : Nat) (buf : Option SampleBuffer)
deriving DecidableEq

/-- AKCoreSampler::play (lines 266–344).  Voice methods are black-boxed: per
the spec's data model, `start`, `restart_new_note` and
`restart_new_note_legato` leave the voice sounding the played key
(noteNumber := key), and `restart_same_note` changes no bookkeeping.  The
returned PlayAction records the call made. -/
def play (s : SamplerState) (noteNumber velocity : Nat) (anotherKeyWasDown : Bool) :
    SamplerState × PlayAction :=
  if s.stoppingAllVoices then (s, .dropped)
  else if !s.isKeyMapValid || s.sampleBufferList.length == 0 then (s, .dropped)
  else if s.isMonophonic then
    if s.isLegato && anotherKeyWasDown then
      -- is our one and only voice playing some note?
      match s.voices.head? with
      | none => (s, .dropped)
      | some v0 =>
        if 0 ≤ v0.noteNumber then
          ({ setVoiceNote s 0 (noteNumber : Int) with lastPlayedNoteNumber := noteNumber },
           .legatoRestart 0 noteNumber)
        else
          match lookupSample s noteNumber velocity with
          | none => (s, .dropped)  -- don't crash if someone forgets to build map
          | some pBuf =>
            ({ setVoiceNote s 0 (noteNumber : Int) with lastPlayedNoteNumber := noteNumber },
             .startVoice 0 noteNumber pBuf)
    else
      -- monophonic but not legato: always start a new note
      match s.voices.head? with
      | none => (s, .dropped)
      | some v0 =>
        match lookupSample s noteNumber velocity with
        | none => (s, .dropped)  -- don't crash if someone forgets to build map
        | some pBuf =>
          if 0 ≤ v0.noteNumber then
            ({ setVoiceNote s 0 (noteNumber : Int) with lastPlayedNoteNumber := noteNumber },
             .restartNewNote 0 noteNumber pBuf)
          else
            ({ setVoiceNote s 0 (noteNumber : Int) with lastPlayedNoteNumber := noteNumber },
             .startVoice 0 noteNumber pBuf)
  else
    -- polyphonic: is any voice already playing this note?
    match voicePlayingNote s noteNumber with
    | some i =>
      -- re-start the note; note: no null check on the lookup here, and
      -- lastPlayedNoteNumber is not updated on this path
      (s, .restartSameNote i (lookupSample s noteNumber velocity))
    | none =>
      -- find a free voice (with noteNumber < 0) to play the note
      let polyphony := if s.isMonophonic then 1 else MAX_POLYPHONY
      match (s.voices.take polyphony).findIdx? (fun v => v.noteNumber < 0) with
      | none => (s, .dropped)  -- all oscillators in use; do nothing
      | some i =>
        match lookupSample s noteNumber velocity with
        | none => (s, .dropped)  -- don't crash if someone forgets to build map
        | some pBuf =>
          ({ setVoiceNote s i (noteNumber : Int) with lastPlayedNoteNumber := noteNumber },
           .startVoice i noteNumber pBuf)

/-- AKCoreSampler::playNote (lines 240–245). -/
def playNote (s : SamplerState) (noteNumber velocity : Nat) : SamplerState × PlayAction :=
  let anotherKeyWasDown := isAnyKeyDown s.pedal
  let s1 := { s with pedal := keyDownAction s.pedal noteNumber }
  play s1 noteNumber velocity anotherKeyWasDown

/-- AKCoreSampler::stop (lines 346–379).  Voice effects per the spec's data
model: `stop()` idles the voice (noteNumber := −1); `release` keeps the
note-number bookkeeping until the envelope runs out; the monophonic restart
paths retarget the voice to the first held key. -/
def stop (s : SamplerState) (noteNumber : Nat) (immediate : Bool) : SamplerState :=
  match voicePlayingNote s noteNumber with
  | none => s
  | some i =>
    if immediate then setVoiceNote s i (-1)
    else if s.isMonophonic then
      let key := firstKeyDown s.pedal
      if key < 0 then s  -- release(loopThruRelease): bookkeeping unchanged
      else if s.isLegato then setVoiceNote s i key
      else
        match lookupSample s key.toNat 100 with
        | none => s  -- don't crash if someone forgets to build map
        | some _ => setVoiceNote s i key  -- restartNewNote / start
    else s  -- release(loopThruRelease): bookkeeping unchanged

/-- AKCoreSampler::stopNote (lines 247–251):
`if (immediate || pedalLogic.keyUpAction(noteNumber)) stop(noteNumber, immediate);`
with C++ short-circuit evaluation: when `immediate` is true, keyUpAction is
never called, so the pedal state is untouched. -/
def stopNote (s : SamplerState) (noteNumber : Nat) (immediate : Bool) : SamplerState :=
  if immediate then stop s noteNumber immediate
  else
    let r := keyUpAction s.pedal noteNumber
    let s1 := { s with pedal := r.2 }
    if r.1 then stop s1 noteNumber immediate else s1

/-- The note-number bookkeeping of voice `i` (idle dummy when out of range;
the render loop visits exactly the pool's 64 entries). -/
def noteAt (s : SamplerState) (i : Nat) : Int :=
  (s.voices.getD i ⟨-1⟩).noteNumber

/-- One call made by AKCoreSampler::render, recorded per loop index so that
theorems can attribute calls to the voice being processed.  Get-sample calls
carry the block size and the two output pointers handed to the voice
(pointers are abstract identifiers). -/
inductive RenderEvent where
  | prepCall (i : Nat)
  | getCall (i : Nat) (sampleCount : Nat) (left right : Nat)
  | stopNoteCall (i : Nat) (note : Nat) (immediate : Bool)
deriving DecidableEq

/-- The body of the render loop of AKCoreSampler::render (lines 413–426) for
voice index `i`.  The black-boxed SamplerVoice calls `prepToGetSamples` and
`getSamples` are represented by the boolean oracles `prep` and `get` giving
each voice's return value for this block; C++ short-circuit evaluation of
`stoppingAllVoices || prep(...) || (get(...) && allowSampleRunout)` decides
which of them run.  Returns the state after the iteration and the calls made. -/
def renderVoiceStep (prep get : Nat → Bool) (allowSampleRunout : Bool)
    (sampleCount outLeft outRight : Nat) (s : SamplerState) (i : Nat) :
    SamplerState × List RenderEvent :=
  let nn := noteAt s i
  if 0 ≤ nn then
    if s.stoppingAllVoices then
      (stopNote s nn.toNat true, [.stopNoteCall i nn.toNat true])
    else if prep i then
      (stopNote s nn.toNat true, [.prepCall i, .stopNoteCall i nn.toNat true])
    else if get i && allowSampleRunout then
      (stopNote s nn.toNat true,
       [.prepCall i, .getCall i sampleCount outLeft outRight, .stopNoteCall i nn.toNat true])
    else
      (s, [.prepCall i, .getCall i sampleCount outLeft outRight])
  else
    (s, [])

/-- The render sweep over a list of voice indices, threading the state and
concatenating the recorded calls. -/
def renderLoop (prep get : Nat → Bool) (allowSampleRunout : Bool)
    (sampleCount outLeft outRight : Nat) :
    List Nat → SamplerState → SamplerState × List RenderEvent
  | [], s => (s, [])
  | i :: rest, s =>
    let r1 := renderVoiceStep prep get allowSampleRunout sampleCount outLeft outRight s i
    let r2 := renderLoop prep get allowSampleRunout sampleCount outLeft outRight rest r1.1
    (r2.1, r1.2 ++ r2.2)

/-- AKCoreSampler::render (lines 402–427).  `pOutLeft = outBuffers[0]` and
`pOutRight = outBuffers[1]` unconditionally; `channelCount` is never read;
`allowSampleRunout = !(isMonophonic && isLegato)` is computed once; then the
loop sweeps all 64 voices.  The per-block pitch/cutoff scalars are computed
only to be forwarded to the black-boxed `prepToGetSamples` and are elided. -/
def render (channelCount sampleCount : Nat) (outBuffers : Nat → Nat)
    (prep get : Nat → Bool) (s : SamplerState) : SamplerState × List RenderEvent :=
  let pOutLeft := outBuffers 0
  let pOutRight := outBuffers 1
  let allowSampleRunout := !(s.isMonophonic && s.isLegato)
  renderLoop prep get allowSampleRunout sampleCount pOutLeft pOutRight
    (List.range MAX_POLYPHONY) s

/-- Spec-side definition, for comparison with `lookupSample` (written from the
claim's words): a buffer matches velocity `v` when it is velocity-agnostic
(negative minimum or maximum) or its range satisfies `min ≤ v ≤ max`. -/
def specVelocityMatch (v : Nat) (b : SampleBuffer) : Bool :=
  decide (b.minimumVelocity < 0) || decide (b.maximumVelocity < 0) ||
  (decide (b.minimumVelocity ≤ (v : Int)) && decide ((v : Int) ≤ b.maximumVelocity))

/-- A sampler as constructed by AKCoreSampler(): empty bank, cleared key map,
invalid flag, all 64 voices idle, pedal clear.  The tuning table's 12-TET
default is irrelevant to the concrete runs below and is fixed at 440. -/
def baseState : SamplerState :=
  { sampleBufferList := []
    keyMap := fun _ => []
    isKeyMapValid := false
    tuningTable := fun _ => 440
    voices := List.replicate MAX_POLYPHONY ⟨-1⟩
    pedal := { keysDown := fun _ => false, keysSustaining := fun _ => false, pedalDown := false }
    lastPlayedNoteNumber := 0
    stoppingAllVoices := false
    isMonophonic := false
    isLegato := false }

/-- A well-formed velocity-agnostic buffer rooted at MIDI note 60. -/
def bufA : SampleBuffer :=
  { minimumNoteNumber := 0, maximumNoteNumber := 127
    minimumVelocity := -1, maximumVelocity := -1
    noteNumber := 60, noteFrequency := 440
    sampleRate := 44100, channelCount := 1, sampleCount := 4
    startPoint := 0, endPoint := 4
    isLooping := false, loopStartPoint := 0, loopEndPoint := 0 }

/-- A descriptor whose `sampleCount` is 0 (≤ 0), i.e. malformed per the spec. -/
def zeroCountDescriptor : AKSampleDataDescriptor :=
  { sampleDescriptor :=
      { noteNumber := 60, noteFrequency := 440
        minimumNoteNumber := 0, maximumNoteNumber := 127
        minimumVelocity := -1, maximumVelocity := -1
        isLooping := false, loopStartPoint := 0, loopEndPoint := 0
        startPoint := 0, endPoint := 0 }
    sampleRate := 44100
    isInterleaved := false
    channelCount := 1
    sampleCount := 0 }

/-- A sampler with one loaded buffer and a freshly built (valid) key map. -/
def validMapState : SamplerState :=
  { baseState with
    sampleBufferList := [bufA]
    keyMap := fun n => if n == 60 then [bufA] else []
    isKeyMapValid := true }

/-- validMapState with key 60 physically held and voice 0 sounding it. -/
def heldKeyState : SamplerState :=
  { validMapState with
    voices := ⟨60⟩ :: List.replicate 63 ⟨-1⟩
    pedal := { keysDown := fun j => j == 60, keysSustaining := fun _ => false
               pedalDown := false } }

/-- validMapState with voice 0 already sounding key 60 and a last-played
note number (59) different from 60. -/
def restartState : SamplerState :=
  { validMapState with
    voices := ⟨60⟩ :: List.replicate 63 ⟨-1⟩
    lastPlayedNoteNumber := 59 }

/-- A buffer mapped to velocities 0–10 only. -/
def bufLow : SampleBuffer := { bufA with minimumVelocity := 0, maximumVelocity := 10 }

/-- A buffer mapped to velocities 20–30 only. -/
def bufHigh : SampleBuffer :=
  { bufA with minimumVelocity := 20, maximumVelocity := 30, noteNumber := 72 }

/-- A sampler whose bucket for key 60 holds two ranged buffers with a gap at
velocities 11–19, and voice 0 already sounding key 60. -/
def gapState : SamplerState :=
  { baseState with
    sampleBufferList := [bufLow, bufHigh]
    keyMap := fun n => if n == 60 then [bufLow, bufHigh] else []
    isKeyMapValid := true
    voices := ⟨60⟩ :: List.replicate 63 ⟨-1⟩ }

/-- A polyphonic sampler with all 64 voices busy on keys 0..63 and a valid map. -/
def fullPoolState : SamplerState :=
  { baseState with
    sampleBufferList := [bufA]
    keyMap := fun _ => [bufA]
    isKeyMapValid := true
    voices := (List.range MAX_POLYPHONY).map (fun i => ⟨(i : Int)⟩)
    lastPlayedNoteNumber := 63 }

/-- A buffer rooted at MIDI note 69 (concert A). -/
def buf69 : SampleBuffer := { bufA with noteNumber := 69 }

/-- A stand-in for the float NOTE_HZ used in the concrete key-map runs below.
Only `hzC 69` is ever consumed by them, and NOTE_HZ(69) = 440·2^0 = 440.0f is
exact in float arithmetic, so the rational model agrees with the code there. -/
def hzC : Int → ℚ := fun n => if n == 69 then 440 else 1

/-- One buffer in the bank, and key 60 retuned (via setNoteFrequency) to
2000000 Hz, farther than the 1000000.0f sentinel from every root pitch. -/
def farTuningState : SamplerState :=
  setNoteFrequency { baseState with sampleBufferList := [buf69] } 60 2000000

/-- One buffer in the bank under the default-style tuning (440 everywhere). -/
def nearTuningState : SamplerState :=
  { baseState with sampleBufferList := [buf69] }

/-- Spec-side description of the last-played bookkeeping actually performed by
play: a start, a restart-new-note or a legato restart records the played key;
the polyphonic restart-same-note path and every dropped note leave the
previous value in place. -/
def lastPlayedAfter (prev : Nat) (r : SamplerState × PlayAction) : Prop :=
  r.1.lastPlayedNoteNumber =
    match r.2 with
    | .legatoRestart _ k => k
    | .startVoice _ k _ => k
    | .restartNewNote _ k _ => k
    | .restartSameNote _ _ => prev
    | .dropped => prev

/-- Spec-side check on a render call record: every get-samples call was handed
`l` as its left output buffer and `r` as its right one. -/
def getCallUses (l r : Nat) : RenderEvent → Bool
  | .getCall _ _ a b => a == l && b == r
  | _ => true

/-- C1, counterexample.  The claim says a descriptor with `sample_count ≤ 0`
is rejected with an InvalidSample error and the bank is unchanged; but
loadSampleData on a fresh sampler with a `sampleCount = 0` descriptor grows
the bank from 0 to 1 buffers (and the function has no error status at all). -/
theorem loadSampleData_accepts_zero_sampleCount :
    zeroCountDescriptor.sampleCount ≤ 0 ∧
    baseState.sampleBufferList.length = 0 ∧
    (loadSampleData baseState zeroCountDescriptor).sampleBufferList.length = 1 := by
  refine ⟨by decide, rfl, rfl⟩

/-- C1, amended.  loadSampleData performs no validation and cannot reject:
for every state and every descriptor — including one with `sample_count ≤ 0`
or `channel_count ∉ {1,2}` — the buffer built from the descriptor is appended
to the bank, and nothing else in the sampler state changes. -/
theorem loadSampleData_always_appends :
    ∀ (s : SamplerState) (sdd : AKSampleDataDescriptor),
    (loadSampleData s sdd).sampleBufferList = s.sampleBufferList ++ [bufferOfDescriptor sdd] ∧
    (loadSampleData s sdd).keyMap = s.keyMap ∧
    (loadSampleData s sdd).voices = s.voices ∧
    (loadSampleData s sdd).lastPlayedNoteNumber = s.lastPlayedNoteNumber :=
  fun _ _ => ⟨rfl, rfl, rfl, rfl⟩

/-- C2, counterexample.  The claim says any load clears the key map's valid
flag; but loading a buffer into a sampler whose key map is valid leaves
`isKeyMapValid = true`. -/
theorem loadSampleData_keeps_keyMapValid_true :
    validMapState.isKeyMapValid = true ∧
    (loadSampleData validMapState zeroCountDescriptor).isKeyMapValid = true :=
  ⟨rfl, rfl⟩

/-- C2, amended.  loadSampleData leaves `isKeyMapValid` (and the key map
itself) unchanged: a load does not invalidate the key map, which therefore
stays marked valid — while no longer reflecting the new buffer — until the
next build call. -/
theorem loadSampleData_preserves_isKeyMapValid :
    ∀ (s : SamplerState) (sdd : AKSampleDataDescriptor),
    (loadSampleData s sdd).isKeyMapValid = s.isKeyMapValid :=
  fun _ _ => rfl

/-- C7, counterexample.  The claim says stop_note(key, immediate=true)
performs the pedal key-up bookkeeping, so keys_down[key] is not left set for
a voice no longer sounding; but with key 60 held and voice 0 sounding it,
stopNote(60, true) idles the voice while `keys_down[60]` remains set. -/
theorem stopNote_immediate_keeps_keysDown :
    heldKeyState.pedal.keysDown 60 = true ∧
    noteAt (stopNote heldKeyState 60 true) 0 = -1 ∧
    (stopNote heldKeyState 60 true).pedal.keysDown 60 = true := by
  refine ⟨rfl, by decide, rfl⟩

/-- C7, amended.  stopNote with immediate=true short-circuits past the pedal
logic: `stop(key, true)` is called, but the pedal key-up bookkeeping is
skipped entirely, so the whole pedal state — `keys_down[key]` included — is
left unchanged. -/
theorem stopNote_immediate_skips_pedal :
    ∀ (s : SamplerState) (k : Nat),
    stopNote s k true = stop s k true ∧
    (stopNote s k true).pedal = s.pedal := by
  intro s k
  refine ⟨rfl, ?_⟩
  show (stop s k true).pedal = s.pedal
  rcases h : voicePlayingNote s k with _ | i <;> simp [stop, h, setVoiceNote]

/-- C9 (confirmed).  In polyphonic mode with voice 0 already sounding key 60
and a two-buffer bucket whose velocity ranges (0–10 and 20–30) exclude
velocity 15, the lookup returns none, yet play hands that none straight to
restartSameNote instead of dropping the note — while the same lookup failure
on the free-voice start path (all voices idle) drops the note. -/
theorem play_restartSameNote_null_buffer :
    lookupSample gapState 60 15 = none ∧
    play gapState 60 15 false = (gapState, .restartSameNote 0 none) ∧
    play { gapState with voices := List.replicate 64 ⟨-1⟩ } 60 15 false
      = ({ gapState with voices := List.replicate 64 ⟨-1⟩ }, .dropped) :=
  ⟨rfl, rfl, rfl⟩

/-- C6, counterexample.  The claim says every successful restart — including
the polyphonic restart_same_note path — sets last_played_note_number to the
played key; but with voice 0 already sounding key 60 and lastPlayedNoteNumber
59, play(60, 100) takes the restart_same_note path and leaves
lastPlayedNoteNumber at 59. -/
theorem play_restartSameNote_keeps_lastPlayed :
    (play restartState 60 100 false).2 = .restartSameNote 0 (some bufA) ∧
    ((play restartState 60 100 false).1).lastPlayedNoteNumber = 59 :=
  ⟨rfl, rfl⟩

/-- C6, amended.  Every successful start or restart performed by play sets
last_played_note_number to the played key, except the polyphonic
restart_same_note path, which returns without updating it. -/
theorem play_lastPlayedNoteNumber :
    ∀ (s : SamplerState) (key vel : Nat) (down : Bool),
    lastPlayedAfter s.lastPlayedNoteNumber (play s key vel down) := by
  intro s key vel down
  unfold play
  repeat' (first | rfl | split | dsimp only)

theorem int32ofUInt_small (v : Nat) (h : v < 2147483648) : int32ofUInt v = (v : Int) := by
  unfold int32ofUInt
  have h1 : v % 4294967296 = v := Nat.mod_eq_of_lt (by omega)
  simp only [h1]
  rw [if_pos h]

theorem find?_ext {α : Type} (l : List α) (p q : α → Bool) (h : ∀ a ∈ l, p a = q a) :
    l.find? p = l.find? q := by
  induction l with
  | nil => rfl
  | cons a t ih =>
    have ha := h a (by simp)
    rw [List.find?_cons, List.find?_cons, ha]
    cases q a
    · exact ih (fun b hb => h b (by simp [hb]))
    · rfl

/-- C4 (confirmed).  For any MIDI-range velocity v: a single-buffer bucket is
returned as-is regardless of v; a bucket of any other size yields the first
buffer in insertion order that is velocity-agnostic or whose range contains v
(none when no buffer matches); and whenever the bucket's first buffer is
velocity-agnostic, the lookup returns a velocity-agnostic buffer. -/
theorem lookupSample_spec :
    ∀ (s : SamplerState) (k v : Nat), v ≤ 127 →
    ((s.keyMap k).length = 1 → lookupSample s k v = (s.keyMap k).head?) ∧
    ((s.keyMap k).length ≠ 1 →
      lookupSample s k v = (s.keyMap k).find? (specVelocityMatch v)) ∧
    (∀ b0, (s.keyMap k).head? = some b0 →
      (b0.minimumVelocity < 0 ∨ b0.maximumVelocity < 0) →
      ∃ b, lookupSample s k v = some b ∧ (b.minimumVelocity < 0 ∨ b.maximumVelocity < 0)) := by
  intro s k v hv
  have hcast : int32ofUInt v = (v : Int) := int32ofUInt_small v (by omega)
  have hpred : ∀ b : SampleBuffer,
      (decide (b.minimumVelocity < 0) || decide (b.maximumVelocity < 0) ||
       (decide (int32ofUInt v ≥ b.minimumVelocity) && decide (int32ofUInt v ≤ b.maximumVelocity)))
      = specVelocityMatch v b := by
    intro b
    simp only [specVelocityMatch, hcast, ge_iff_le]
  refine ⟨?_, ?_, ?_⟩
  · intro h1
    simp [lookupSample, h1]
  · intro h1
    have hb : ((s.keyMap k).length == 1) = false := by
      simp [h1]
    simp only [lookupSample, hb, Bool.false_eq_true, if_false]
    exact find?_ext _ _ _ (fun b _ => hpred b)
  · intro b0 hb0 hag
    by_cases h1 : (s.keyMap k).length = 1
    · refine ⟨b0, ?_, hag⟩
      simp [lookupSample, h1, hb0]
    · have hb : ((s.keyMap k).length == 1) = false := by simp [h1]
      cases hbk : s.keyMap k with
      | nil => rw [hbk] at hb0; simp at hb0
      | cons a t =>
        rw [hbk] at hb0
        simp only [List.head?_cons, Option.some.injEq] at hb0
        subst hb0
        refine ⟨a, ?_, hag⟩
        rw [hbk] at hb
        simp only [lookupSample, hbk, hb, Bool.false_eq_true, if_false]
        rw [List.find?_cons]
        have hpa : (decide (a.minimumVelocity < 0) || decide (a.maximumVelocity < 0) ||
            (decide (int32ofUInt v ≥ a.minimumVelocity) &&
             decide (int32ofUInt v ≤ a.maximumVelocity))) = true := by
          rcases hag with h | h <;> simp [h]
        rw [hpa]

/-- C4, witness: lookupSample_spec applied to the concrete two-buffer bucket
of gapState at velocity 100; neither range (0–10, 20–30) contains 100 and
neither buffer is velocity-agnostic, so the characterized find? is none. -/
theorem lookupSample_spec_witness :
    100 ≤ 127 ∧
    (((gapState.keyMap 60).length = 1 →
        lookupSample gapState 60 100 = (gapState.keyMap 60).head?) ∧
     ((gapState.keyMap 60).length ≠ 1 →
        lookupSample gapState 60 100 = (gapState.keyMap 60).find? (specVelocityMatch 100)) ∧
     (∀ b0, (gapState.keyMap 60).head? = some b0 →
        (b0.minimumVelocity < 0 ∨ b0.maximumVelocity < 0) →
        ∃ b, lookupSample gapState 60 100 = some b ∧
          (b.minimumVelocity < 0 ∨ b.maximumVelocity < 0))) :=
  ⟨by decide, lookupSample_spec gapState 60 100 (by decide)⟩

/-- C8 (confirmed).  In polyphonic mode, when every one of the voices is busy
(note_number ≥ 0) on a key other than the requested one, play returns with
the state untouched: no voice is started or restarted and
last_played_note_number is unchanged.  The bound 2^31 reflects the C `int`
range of a voice's noteNumber. -/
theorem play_poly_pool_exhausted :
    ∀ (s : SamplerState) (key vel : Nat) (down : Bool),
    s.isMonophonic = false →
    (∀ v ∈ s.voices, 0 ≤ v.noteNumber ∧ v.noteNumber < 2147483648 ∧ v.noteNumber ≠ (key : Int)) →
    play s key vel down = (s, .dropped) ∧
    ((play s key vel down).1).lastPlayedNoteNumber = s.lastPlayedNoteNumber := by
  intro s key vel down hm hv
  have h1 : voicePlayingNote s key = none := by
    unfold voicePlayingNote
    rw [List.findIdx?_eq_none_iff]
    intro v hvmem
    obtain ⟨h0, hlt, hne⟩ := hv v hvmem
    have hc : uint32ofInt v.noteNumber = v.noteNumber.toNat := by
      unfold uint32ofInt
      rw [Int.emod_eq_of_lt h0 (by omega)]
    rw [hc]
    simp only [beq_eq_false_iff_ne, ne_eq]
    intro hEq
    apply hne
    omega
  have h2 : (s.voices.take MAX_POLYPHONY).findIdx? (fun v => decide (v.noteNumber < 0)) = none := by
    rw [List.findIdx?_eq_none_iff]
    intro v hvmem
    obtain ⟨h0, _, _⟩ := hv v (List.take_subset _ _ hvmem)
    simp
    omega
  have hmain : play s key vel down = (s, .dropped) := by
    cases hsv : s.stoppingAllVoices with
    | true => simp [play, hsv]
    | false =>
      cases hkv : (!s.isKeyMapValid || s.sampleBufferList.length == 0) with
      | true => simp [play, hsv, hkv]
      | false => simp [play, hsv, hkv, hm, h1, h2]
  exact ⟨hmain, by rw [hmain]⟩

/-- C8, witness: the scenario of the spec — all 64 voices busy on keys 0..63,
last played key 63 — and a note-on for key 64 is silently dropped. -/
theorem play_poly_pool_exhausted_witness :
    fullPoolState.isMonophonic = false ∧
    (∀ v ∈ fullPoolState.voices,
      0 ≤ v.noteNumber ∧ v.noteNumber < 2147483648 ∧ v.noteNumber ≠ (64 : Int)) ∧
    play fullPoolState 64 100 false = (fullPoolState, .dropped) ∧
    ((play fullPoolState 64 100 false).1).lastPlayedNoteNumber = 63 := by
  have h := play_poly_pool_exhausted fullPoolState 64 100 false rfl (by decide)
  exact ⟨rfl, by decide, h.1, by rw [h.1]; rfl⟩

/-- C3 (confirmed).  A render call computes allowSampleRunout once and sweeps
the voices with renderVoiceStep; within a step, a voice with note nn is
retired via stopNote(nn, immediate=true) exactly when stoppingAllVoices is
set, or prepToGetSamples returns true, or getSamples returns true and
allowSampleRunout = !(isMonophonic && isLegato) holds; prepToGetSamples runs
iff the voice is active and stoppingAllVoices is clear; getSamples runs iff
additionally prepToGetSamples returned false; an idle voice is skipped with
no calls at all. -/
theorem render_voice_retirement :
    ∀ (cc sc : Nat) (bufs : Nat → Nat) (prep get : Nat → Bool) (s : SamplerState) (i : Nat),
    render cc sc bufs prep get s =
      renderLoop prep get (!(s.isMonophonic && s.isLegato)) sc (bufs 0) (bufs 1)
        (List.range MAX_POLYPHONY) s ∧
    ((RenderEvent.stopNoteCall i (noteAt s i).toNat true ∈
        (renderVoiceStep prep get (!(s.isMonophonic && s.isLegato)) sc (bufs 0) (bufs 1) s i).2 ↔
      (0 ≤ noteAt s i ∧ (s.stoppingAllVoices = true ∨ prep i = true ∨
        (get i = true ∧ (!(s.isMonophonic && s.isLegato)) = true)))) ∧
     (RenderEvent.prepCall i ∈
        (renderVoiceStep prep get (!(s.isMonophonic && s.isLegato)) sc (bufs 0) (bufs 1) s i).2 ↔
      (0 ≤ noteAt s i ∧ s.stoppingAllVoices = false)) ∧
     (RenderEvent.getCall i sc (bufs 0) (bufs 1) ∈
        (renderVoiceStep prep get (!(s.isMonophonic && s.isLegato)) sc (bufs 0) (bufs 1) s i).2 ↔
      (0 ≤ noteAt s i ∧ s.stoppingAllVoices = false ∧ prep i = false)) ∧
     ((renderVoiceStep prep get (!(s.isMonophonic && s.isLegato)) sc (bufs 0) (bufs 1) s i).1 =
      if 0 ≤ noteAt s i ∧ (s.stoppingAllVoices = true ∨ prep i = true ∨
           (get i = true ∧ (!(s.isMonophonic && s.isLegato)) = true))
      then stopNote s (noteAt s i).toNat true else s) ∧
     (¬ 0 ≤ noteAt s i →
      renderVoiceStep prep get (!(s.isMonophonic && s.isLegato)) sc (bufs 0) (bufs 1) s i
        = (s, []))) := by
  intro cc sc bufs prep get s i
  refine ⟨rfl, ?_⟩
  by_cases hnn : (0:Int) ≤ noteAt s i
  · cases hsv : s.stoppingAllVoices with
    | true => simp [renderVoiceStep, hnn, hsv]
    | false =>
      cases hp : prep i with
      | true => simp [renderVoiceStep, hnn, hsv, hp]
      | false =>
        cases hg : get i with
        | false => simp [renderVoiceStep, hnn, hsv, hp, hg]
        | true =>
          cases hml : s.isMonophonic && s.isLegato with
          | true => simp [renderVoiceStep, hnn, hsv, hp, hg, hml]
          | false => simp [renderVoiceStep, hnn, hsv, hp, hg, hml]
  · simp [renderVoiceStep, hnn]

/-- C3, witness: the characterization applied to heldKeyState (voice 0 active
on key 60, stoppingAllVoices clear) with prepToGetSamples reporting false and
getSamples reporting true: with allowSampleRunout true the voice is retired. -/
theorem render_voice_retirement_witness :
    RenderEvent.stopNoteCall 0 60 true ∈
      (renderVoiceStep (fun _ => false) (fun _ => true)
        (!(heldKeyState.isMonophonic && heldKeyState.isLegato)) 64 8 9 heldKeyState 0).2 ∧
    RenderEvent.getCall 0 64 8 9 ∈
      (renderVoiceStep (fun _ => false) (fun _ => true)
        (!(heldKeyState.isMonophonic && heldKeyState.isLegato)) 64 8 9 heldKeyState 0).2 := by
  have h := render_voice_retirement 2 64 (fun j => 8 + j) (fun _ => false) (fun _ => true)
    heldKeyState 0
  exact ⟨(h.2.1).mpr (by decide), (h.2.2.2.1).mpr (by decide)⟩

theorem renderVoiceStep_getCallUses (prep get : Nat → Bool) (ar : Bool)
    (sc l r : Nat) (s : SamplerState) (i : Nat) :
    (renderVoiceStep prep get ar sc l r s i).2.all (getCallUses l r) = true := by
  by_cases hnn : (0:Int) ≤ noteAt s i
  · simp only [renderVoiceStep, if_pos hnn]
    cases hsv : s.stoppingAllVoices with
    | true => simp [getCallUses]
    | false =>
      cases hp : prep i with
      | true => simp [getCallUses]
      | false =>
        cases hg : get i && ar with
        | true => simp [getCallUses]
        | false => simp [getCallUses]
  · simp only [renderVoiceStep, if_neg hnn]
    rfl

theorem renderLoop_getCallUses (prep get : Nat → Bool) (ar : Bool) (sc l r : Nat) :
    ∀ (idxs : List Nat) (s : SamplerState),
    (renderLoop prep get ar sc l r idxs s).2.all (getCallUses l r) = true := by
  intro idxs
  induction idxs with
  | nil => intro s; rfl
  | cons i rest ih =>
    intro s
    simp only [renderLoop, List.all_append]
    rw [renderVoiceStep_getCallUses, ih]
    rfl

/-- C10 (confirmed).  The channelCount argument of render has no effect: two
render calls on identical states and arguments that differ only in
channelCount produce identical final states and identical call records; and
every get-samples call in a render is handed outBuffers[0] as the left
channel and outBuffers[1] as the right channel. -/
theorem render_channelCount_irrelevant :
    ∀ (cc ccAlt sc : Nat) (bufs : Nat → Nat) (prep get : Nat → Bool) (s : SamplerState),
    render cc sc bufs prep get s = render ccAlt sc bufs prep get s ∧
    (render cc sc bufs prep get s).2.all (getCallUses (bufs 0) (bufs 1)) = true := by
  intro cc ccAlt sc bufs prep get s
  exact ⟨rfl, renderLoop_getCallUses prep get _ sc (bufs 0) (bufs 1) _ s⟩

theorem foldlMin_le_init {α : Type} (f : α → ℚ) (l : List α) (init : ℚ) :
    l.foldl (fun m x => if f x < m then f x else m) init ≤ init := by
  induction l generalizing init with
  | nil => simp
  | cons a t ih =>
    simp only [List.foldl_cons]
    by_cases h : f a < init
    · rw [if_pos h]; exact (ih (f a)).trans h.le
    · rw [if_neg h]; exact ih init

theorem foldlMin_le_mem {α : Type} (f : α → ℚ) (l : List α) (a : α) (ha : a ∈ l) :
    ∀ (init : ℚ), l.foldl (fun m x => if f x < m then f x else m) init ≤ f a := by
  induction l with
  | nil => cases ha
  | cons b t ih =>
    intro init
    simp only [List.foldl_cons]
    rcases List.mem_cons.mp ha with rfl | hmem
    · have hle : (if f a < init then f a else init) ≤ f a := by
        by_cases h : f a < init
        · rw [if_pos h]
        · rw [if_neg h]; exact le_of_not_lt h
      exact (foldlMin_le_init f t _).trans hle
    · exact ih hmem _

theorem foldlMin_eq_init_or_mem {α : Type} (f : α → ℚ) (l : List α) :
    ∀ (init : ℚ),
    l.foldl (fun m x => if f x < m then f x else m) init = init ∨
    ∃ a ∈ l, l.foldl (fun m x => if f x < m then f x else m) init = f a := by
  induction l with
  | nil => intro init; left; rfl
  | cons b t ih =>
    intro init
    simp only [List.foldl_cons]
    rcases ih (if f b < init then f b else init) with h | ⟨a, ha, h⟩
    · by_cases hb : f b < init
      · right; exact ⟨b, by simp, by rw [h, if_pos hb]⟩
      · left; rw [h, if_neg hb]
    · right; exact ⟨a, by simp [ha], h⟩

/-- C5, counterexample.  The claim says buckets[k] holds exactly the buffers
at the minimum distance over the whole bank; but with key 60 retuned to
2000000 Hz the single buffer of the bank (root 69, pitch 440) is at distance
1999560 — the bank-wide minimum — and still ends up in an empty bucket,
because the first scan's running minimum stays at its 1000000.0f seed and
the second scan's equality test then matches nothing.  (The arithmetic here
is exact in float as well: NOTE_HZ(69) = 440.0f and 2000000 − 440 = 1999560
are exactly representable.) -/
theorem buildSimpleKeyMap_misses_far_min :
    farTuningState.sampleBufferList = [buf69] ∧
    (buildSimpleKeyMap hzC farTuningState).keyMap 60 = [] ∧
    specClosestBucket hzC (farTuningState.tuningTable 60) farTuningState.sampleBufferList
      = [buf69] ∧
    (buildSimpleKeyMap hzC farTuningState).isKeyMapValid = true := by
  have ht : farTuningState.tuningTable 60 = 2000000 := by
    norm_num [farTuningState, setNoteFrequency]
  have hd : noteDistance hzC (farTuningState.tuningTable 60) buf69 = 1999560 := by
    rw [ht]
    simp only [noteDistance, buf69, bufA, hzC]
    norm_num
  have hmin : minDistanceScan hzC (farTuningState.tuningTable 60)
      farTuningState.sampleBufferList = 1000000 := by
    show (if noteDistance hzC (farTuningState.tuningTable 60) buf69 < 1000000
          then noteDistance hzC (farTuningState.tuningTable 60) buf69
          else (1000000:ℚ)) = 1000000
    rw [hd]
    norm_num
  have hpfalse : (noteDistance hzC (farTuningState.tuningTable 60) buf69
      == minDistanceScan hzC (farTuningState.tuningTable 60)
           farTuningState.sampleBufferList) = false := by
    rw [hd, hmin]
    exact beq_eq_false_iff_ne.mpr (by norm_num)
  have hbucket : (buildSimpleKeyMap hzC farTuningState).keyMap 60 = [] := by
    simp only [buildSimpleKeyMap]
    rw [if_pos (by norm_num [MIDI_NOTENUMBERS])]
    show List.filter _ [buf69] = []
    rw [List.filter_cons]
    simp [hpfalse]
  have hptrue : decide (∀ b' ∈ farTuningState.sampleBufferList,
      noteDistance hzC (farTuningState.tuningTable 60) buf69
        ≤ noteDistance hzC (farTuningState.tuningTable 60) b') = true := by
    apply decide_eq_true
    intro b' hb'
    have : b' = buf69 := by simpa [farTuningState, setNoteFrequency, baseState] using hb'
    rw [this]
  have hspec : specClosestBucket hzC (farTuningState.tuningTable 60)
      farTuningState.sampleBufferList = [buf69] := by
    unfold specClosestBucket
    show List.filter _ [buf69] = [buf69]
    rw [List.filter_cons]
    simp only [hptrue]
    rfl
  exact ⟨rfl, hbucket, hspec, rfl⟩

/-- C5, amended.  Whenever at least one bank buffer lies within the 1000000.0f
sentinel of the key's tuned frequency (always the case under default 12-TET
tuning), buildSimpleKeyMap fills buckets[k] with exactly the buffers whose
distance attains the bank-wide minimum, in bank insertion order; every bucket
entry is a bank member and the valid flag is set.  When every buffer is
farther than the sentinel, the bucket is left empty instead. -/
theorem buildSimpleKeyMap_closest :
    ∀ (hz : Int → ℚ) (s : SamplerState) (k : Nat), k < MIDI_NOTENUMBERS →
    (∃ b0 ∈ s.sampleBufferList, noteDistance hz (s.tuningTable k) b0 ≤ 1000000) →
    (buildSimpleKeyMap hz s).keyMap k
      = specClosestBucket hz (s.tuningTable k) s.sampleBufferList ∧
    (buildSimpleKeyMap hz s).isKeyMapValid = true ∧
    (∀ b ∈ (buildSimpleKeyMap hz s).keyMap k, b ∈ s.sampleBufferList) := by
  intro hz s k hk hex
  have hle_all : ∀ b ∈ s.sampleBufferList,
      minDistanceScan hz (s.tuningTable k) s.sampleBufferList
        ≤ noteDistance hz (s.tuningTable k) b := by
    intro b hb
    exact foldlMin_le_mem (noteDistance hz (s.tuningTable k)) _ b hb 1000000
  have attained : ∃ b1 ∈ s.sampleBufferList,
      minDistanceScan hz (s.tuningTable k) s.sampleBufferList
        = noteDistance hz (s.tuningTable k) b1 := by
    rcases foldlMin_eq_init_or_mem (noteDistance hz (s.tuningTable k))
        s.sampleBufferList 1000000 with h | h
    · obtain ⟨b0, hb0, hle⟩ := hex
      have hs1000 : minDistanceScan hz (s.tuningTable k) s.sampleBufferList = 1000000 := h
      have hge : (1000000:ℚ) ≤ noteDistance hz (s.tuningTable k) b0 :=
        hs1000 ▸ hle_all b0 hb0
      exact ⟨b0, hb0, by rw [hs1000, le_antisymm hle hge]⟩
    · exact h
  have hfilter : ∀ b ∈ s.sampleBufferList,
      (noteDistance hz (s.tuningTable k) b
         == minDistanceScan hz (s.tuningTable k) s.sampleBufferList)
      = decide (∀ b' ∈ s.sampleBufferList,
          noteDistance hz (s.tuningTable k) b ≤ noteDistance hz (s.tuningTable k) b') := by
    intro b hb
    by_cases hdb : noteDistance hz (s.tuningTable k) b
        = minDistanceScan hz (s.tuningTable k) s.sampleBufferList
    · have hall : ∀ b' ∈ s.sampleBufferList,
          noteDistance hz (s.tuningTable k) b ≤ noteDistance hz (s.tuningTable k) b' :=
        fun b' hb' => hdb ▸ hle_all b' hb'
      have h1 : (noteDistance hz (s.tuningTable k) b
          == minDistanceScan hz (s.tuningTable k) s.sampleBufferList) = true :=
        beq_iff_eq.mpr hdb
      rw [h1, decide_eq_true hall]
    · have hnall : ¬ (∀ b' ∈ s.sampleBufferList,
          noteDistance hz (s.tuningTable k) b ≤ noteDistance hz (s.tuningTable k) b') := by
        intro hall
        obtain ⟨b1, hb1, hs⟩ := attained
        exact hdb (le_antisymm (hs ▸ hall b1 hb1) (hle_all b hb))
      simp [hdb, hnall]
  have hbucket : (buildSimpleKeyMap hz s).keyMap k
      = s.sampleBufferList.filter (fun b =>
          noteDistance hz (s.tuningTable k) b
            == minDistanceScan hz (s.tuningTable k) s.sampleBufferList) := by
    simp only [buildSimpleKeyMap]
    rw [if_pos hk]
  refine ⟨?_, rfl, ?_⟩
  · rw [hbucket]
    unfold specClosestBucket
    exact List.filter_congr hfilter
  · intro b hb
    rw [hbucket] at hb
    exact (List.mem_filter.mp hb).1

/-- C5, witness: the characterization applied to a one-buffer bank (root 69,
pitch 440) with key 60 tuned to 440, distance 0 ≤ 1000000. -/
theorem buildSimpleKeyMap_closest_witness :
    (60 < MIDI_NOTENUMBERS ∧
     ∃ b0 ∈ nearTuningState.sampleBufferList,
       noteDistance hzC (nearTuningState.tuningTable 60) b0 ≤ 1000000) ∧
    ((buildSimpleKeyMap hzC nearTuningState).keyMap 60
       = specClosestBucket hzC (nearTuningState.tuningTable 60)
           nearTuningState.sampleBufferList ∧
     (buildSimpleKeyMap hzC nearTuningState).isKeyMapValid = true ∧
     (∀ b ∈ (buildSimpleKeyMap hzC nearTuningState).keyMap 60,
        b ∈ nearTuningState.sampleBufferList)) := by
  have hex : ∃ b0 ∈ nearTuningState.sampleBufferList,
      noteDistance hzC (nearTuningState.tuningTable 60) b0 ≤ 1000000 := by
    refine ⟨buf69, by simp [nearTuningState, baseState], ?_⟩
    simp only [noteDistance, nearTuningState, baseState, buf69, bufA, hzC]
    norm_num
  exact ⟨⟨by norm_num [MIDI_NOTENUMBERS], hex⟩,
    buildSimpleKeyMap_closest hzC nearTuningState 60 (by norm_num [MIDI_NOTENUMBERS]) hex⟩

end AKSampler
